import Mathlib

/-!
Verification of the stream lifecycle manager, per-frame effect pipeline and
sink fan-out of `video-processing-system/processing/video_processor.py`.

The Python source is shallowly embedded:
* a frame (`numpy` array) is a matrix of 3-channel pixels with `Nat` channels;
* the external OpenCV / torch operations (`cv2.GaussianBlur`, `cv2.cvtColor`,
  `cv2.Canny`, the enhancement model forward pass) are fields of a `CVOps`
  record of fallible functions (`Except String Mat`), since any of them may
  raise; the repository's own arithmetic (the hue-shift line 215) is embedded
  concretely;
* the mutable `VideoProcessor` state (`active_streams` dict, dynamic
  `hls_process_{id}` / `dash_process_{id}` attributes) is a `ProcState`
  record of association lists, and every method is a state-passing function;
* external effects of a sink call (directory creation, process spawn, pipe
  write, JPEG encode) succeed or fail according to a `SinkEnv` environment
  supplied per sink position, mirroring fault injection into the real world.
-/

deriving instance DecidableEq for Except

/-- One pixel of a frame: three `Nat` channel values (B,G,R in BGR order, or
H,S,V after a `cv2.COLOR_BGR2HSV` conversion).  OpenCV mats are `uint8`, so
channel arithmetic in the embedded repository code wraps modulo 256. -/
structure Pixel where
  c0 : Nat
  c1 : Nat
  c2 : Nat
deriving DecidableEq

/-- A frame: a matrix (list of rows) of pixels, the embedding of a
`numpy` `(H, W, 3)` `uint8` array. -/
abbrev Mat := List (List Pixel)

/-- Section `config['processing_effects']['blur']` (video_processor.py line 56). -/
structure BlurConfig where
  enabled : Bool
  kernel_size : Nat
deriving DecidableEq

/-- Section `config['processing_effects']['edge_detection']` (line 57). -/
structure EdgeConfig where
  enabled : Bool
  threshold1 : Nat
  threshold2 : Nat
deriving DecidableEq

/-- Section `config['processing_effects']['color_filter']` (line 58). -/
structure ColorConfig where
  enabled : Bool
  hue_shift : Nat
deriving DecidableEq

/-- Section `config['processing_effects']['ml_enhancement']` (line 59). -/
structure MLConfig where
  enabled : Bool
  model : String
deriving DecidableEq

/-- The `processing_effects` section of the configuration (lines 55-60). -/
structure EffectsConfig where
  blur : BlurConfig
  edge_detection : EdgeConfig
  color_filter : ColorConfig
  ml_enhancement : MLConfig
deriving DecidableEq

/-- The external OpenCV / torch operations invoked by `apply_effects` and
`apply_ml_enhancement`.  Each may raise an exception in Python, hence
`Except String Mat`.  They are parameters of the embedding: the theorems
hold for every behaviour of the external libraries. -/
structure CVOps where
  gaussianBlur : Nat → Mat → Except String Mat
  bgr2gray : Mat → Except String Mat
  canny : Nat → Nat → Mat → Except String Mat
  gray2bgr : Mat → Except String Mat
  bgr2hsv : Mat → Except String Mat
  hsv2bgr : Mat → Except String Mat
  enhanceForward : Mat → Except String Mat

/-- Line 215: `hsv[:,:,0] = (hsv[:,:,0] + hue_shift) % 180`.  `hsv` is a
`uint8` array produced by `cv2.cvtColor`, so the numpy addition of the
configured integer shift (for a shift in the `uint8` range 0..255) wraps
modulo 256 before the explicit `% 180` is applied; saturation (`c1`) and
value (`c2`) channels are untouched. -/
def hueShiftLine (shift : Nat) (hsv : Mat) : Mat :=
  hsv.map (fun row => row.map (fun p => ⟨(p.c0 + shift) % 256 % 180, p.c1, p.c2⟩))

/-- Modelled from the spec: "hue rotation by a configured shift, wrapped
modulo the hue range" — each pixel's hue becomes `(hue + shift) % 180`,
with saturation and value unchanged.  Kept separate from `hueShiftLine`
(the embedding of source line 215) to compare the two. -/
def hueShiftSpec (shift : Nat) (hsv : Mat) : Mat :=
  hsv.map (fun row => row.map (fun p => ⟨(p.c0 + shift) % 180, p.c1, p.c2⟩))

/-- Method `apply_ml_enhancement` (lines 223-236): runs the enhancement model's
forward pass plus tensor conversions under a `try`; on any exception it
logs and returns the original input frame unchanged. -/
def apply_ml_enhancement (cv : CVOps) (frame : Mat) : Mat :=
  match cv.enhanceForward frame with
  | Except.ok enhanced => enhanced
  | Except.error _ => frame

/-- Method `apply_effects` (lines 198-221): copies the frame, then applies the four
optional stages in source order — blur (202-204), edge detection (206-211),
color filter (213-216), ML enhancement (218-219).  There is no `try` around
the stages, so an exception raised by any OpenCV call propagates to the
caller (`process_frame`).  `hasModel` embeds `'enhancement' in self.models`. -/
def apply_effects (cv : CVOps) (cfg : EffectsConfig) (hasModel : Bool) (frame : Mat) :
    Except String Mat :=
  Except.bind
    (if cfg.blur.enabled then cv.gaussianBlur cfg.blur.kernel_size frame
     else pure frame)
    (fun processed1 =>
      Except.bind
        (if cfg.edge_detection.enabled then
          Except.bind (cv.bgr2gray processed1) (fun gray =>
            Except.bind
              (cv.canny cfg.edge_detection.threshold1 cfg.edge_detection.threshold2 gray)
              (fun edges => cv.gray2bgr edges))
         else pure processed1)
        (fun processed2 =>
          Except.bind
            (if cfg.color_filter.enabled then
              Except.bind (cv.bgr2hsv processed2) (fun hsv =>
                cv.hsv2bgr (hueShiftLine cfg.color_filter.hue_shift hsv))
             else pure processed2)
            (fun processed3 =>
              if cfg.ml_enhancement.enabled && hasModel then
                pure (apply_ml_enhancement cv processed3)
              else pure processed3)))

/-- The blur stage of the chain in isolation (lines 202-204). -/
def blur_stage (cv : CVOps) (cfg : EffectsConfig) (f : Mat) : Except String Mat :=
  if cfg.blur.enabled then cv.gaussianBlur cfg.blur.kernel_size f else pure f

/-- The edge-detection stage of the chain in isolation (lines 206-211). -/
def edge_stage (cv : CVOps) (cfg : EffectsConfig) (f : Mat) : Except String Mat :=
  if cfg.edge_detection.enabled then do
    let gray ← cv.bgr2gray f
    let edges ← cv.canny cfg.edge_detection.threshold1 cfg.edge_detection.threshold2 gray
    cv.gray2bgr edges
  else pure f

/-- The color-filter stage of the chain in isolation (lines 213-216). -/
def color_filter_stage (cv : CVOps) (cfg : EffectsConfig) (f : Mat) : Except String Mat :=
  if cfg.color_filter.enabled then do
    let hsv ← cv.bgr2hsv f
    cv.hsv2bgr (hueShiftLine cfg.color_filter.hue_shift hsv)
  else pure f

/-- The ML-enhancement stage of the chain in isolation (lines 218-219);
`apply_ml_enhancement` never raises, so this stage always succeeds. -/
def ml_stage (cv : CVOps) (cfg : EffectsConfig) (hasModel : Bool) (f : Mat) :
    Except String Mat :=
  if cfg.ml_enhancement.enabled && hasModel then pure (apply_ml_enhancement cv f)
  else pure f

/-- The given configuration with all four stage toggles off. -/
def disableAll (cfg : EffectsConfig) : EffectsConfig where
  blur := { cfg.blur with enabled := false }
  edge_detection := { cfg.edge_detection with enabled := false }
  color_filter := { cfg.color_filter with enabled := false }
  ml_enhancement := { cfg.ml_enhancement with enabled := false }

/-- Field `stream['input']`: an input descriptor with a `type` kind
(see `get_stream_stats` line 350). -/
structure InputConfig where
  type : String
deriving DecidableEq

/-- One element of `output_configs`: a sink descriptor with a `type` kind
(`"webrtc"`, `"hls"` or `"dash"`, see `output_frame` lines 241-247). -/
structure OutputConfig where
  type : String
deriving DecidableEq

/-- One entry of the `active_streams` dict (lines 314-319). -/
structure StreamEntry where
  input : InputConfig
  outputs : List OutputConfig
  start_time : Rat
  frame_count : Nat
deriving DecidableEq

/-- An external encoder process spawned by `subprocess.Popen`
(line 273 / 299).  `respondsToTerminate` says whether, at teardown,
`stdin.close(); terminate(); wait(timeout=5)` completes within the timeout
without raising. -/
structure SinkProcess where
  respondsToTerminate : Bool
deriving DecidableEq

/-- The mutable state of a `VideoProcessor` instance touched by the core:
the `active_streams` dict and the dynamic `hls_process_{id}` /
`dash_process_{id}` attributes, both as association lists keyed by
strings (first match wins, as in a Python dict with unique keys). -/
structure ProcState where
  active_streams : List (String × StreamEntry)
  sink_procs : List (String × SinkProcess)
deriving DecidableEq

/-- Dict lookup: first entry with the given key. -/
def lookupKey {α : Type} : List (String × α) → String → Option α
  | [], _ => none
  | (k, v) :: rest, key => if k == key then some v else lookupKey rest key

/-- Dict assignment `d[key] = v`: replace the first entry with the key,
or append if absent. -/
def insertKey {α : Type} : List (String × α) → String → α → List (String × α)
  | [], key, v => [(key, v)]
  | (k, w) :: rest, key, v =>
    if k == key then (key, v) :: rest else (k, w) :: insertKey rest key v

/-- Dict deletion `del d[key]` / `delattr`: drop every entry with the key. -/
def eraseKey {α : Type} : List (String × α) → String → List (String × α)
  | [], _ => []
  | (k, v) :: rest, key =>
    if k == key then eraseKey rest key else (k, v) :: eraseKey rest key

/-- External-world outcomes for one sink call on one frame: whether
`os.makedirs` succeeds (it sits OUTSIDE the `try` of `output_hls` /
`output_dash`), whether `subprocess.Popen` succeeds, whether the pipe
write succeeds, whether `cv2.imencode` succeeds, and whether a process
spawned now will later respond to graceful termination. -/
structure SinkEnv where
  mkdirOk : Bool
  spawnOk : Bool
  writeOk : Bool
  encodeOk : Bool
  procResponds : Bool
deriving DecidableEq

/-- Method `output_webrtc` (lines 249-255): everything sits inside a `try`, so the
call never raises and never touches the registry; the frame is delivered
(encoded and handed to `send_to_webrtc_client`) iff the encode succeeds.
Result: (state, delivered, raised). -/
def output_webrtc (st : ProcState) (env : SinkEnv) : ProcState × Bool × Bool :=
  (st, env.encodeOk, false)

/-- Method `output_hls` (lines 257-281): `os.makedirs` runs before the `try`, so
its failure raises out of the function; inside the `try`, the persistent
ffmpeg process is spawned on first use (stored as attribute
`hls_process_{id}`) and the raw frame is written to its stdin, any
exception being caught and logged.  Result: (state, delivered, raised). -/
def output_hls (st : ProcState) (env : SinkEnv) (id : String) : ProcState × Bool × Bool :=
  if env.mkdirOk = false then (st, false, true)
  else
    match lookupKey st.sink_procs ("hls_process_" ++ id) with
    | some _ => (st, env.writeOk, false)
    | none =>
      if env.spawnOk then
        ({ st with
            sink_procs :=
              insertKey st.sink_procs ("hls_process_" ++ id) ⟨env.procResponds⟩ },
          env.writeOk, false)
      else (st, false, false)

/-- Method `output_dash` (lines 283-307): same shape as `output_hls` with the
`dash_process_{id}` attribute. -/
def output_dash (st : ProcState) (env : SinkEnv) (id : String) : ProcState × Bool × Bool :=
  if env.mkdirOk = false then (st, false, true)
  else
    match lookupKey st.sink_procs ("dash_process_" ++ id) with
    | some _ => (st, env.writeOk, false)
    | none =>
      if env.spawnOk then
        ({ st with
            sink_procs :=
              insertKey st.sink_procs ("dash_process_" ++ id) ⟨env.procResponds⟩ },
          env.writeOk, false)
      else (st, false, false)

/-- The `for output_config in output_configs` loop of `output_frame`
(lines 241-247), carried out from sink index `i`.  Returns the state, the
list of `(sink index, frame)` writes that succeeded, and whether an
exception escaped the loop (which only a raise inside a sink call can
cause, since the loop body has no `try`). -/
def output_loop (env : Nat → SinkEnv) (id : String) (f : Mat) :
    List OutputConfig → Nat → ProcState → ProcState × List (Nat × Mat) × Bool
  | [], _, st => (st, [], false)
  | oc :: rest, i, st =>
    if oc.type == "webrtc" then
      let r1 := output_webrtc st (env i)
      let r2 := output_loop env id f rest (i + 1) r1.1
      (r2.1, if r1.2.1 then (i, f) :: r2.2.1 else r2.2.1, r2.2.2)
    else if oc.type == "hls" then
      let r1 := output_hls st (env i) id
      if r1.2.2 then (r1.1, [], true)
      else
        let r2 := output_loop env id f rest (i + 1) r1.1
        (r2.1, if r1.2.1 then (i, f) :: r2.2.1 else r2.2.1, r2.2.2)
    else if oc.type == "dash" then
      let r1 := output_dash st (env i) id
      if r1.2.2 then (r1.1, [], true)
      else
        let r2 := output_loop env id f rest (i + 1) r1.1
        (r2.1, if r1.2.1 then (i, f) :: r2.2.1 else r2.2.1, r2.2.2)
    else output_loop env id f rest (i + 1) st

/-- Expression `self.active_streams.get(stream_id, ...).get('outputs', [])` (line 239). -/
def streamOutputs (st : ProcState) (id : String) : List OutputConfig :=
  match lookupKey st.active_streams id with
  | some e => e.outputs
  | none => []

/-- Method `output_frame` (lines 238-247): fan the processed frame out to every
configured sink of the stream, in order. -/
def output_frame (st : ProcState) (env : Nat → SinkEnv) (id : String) (f : Mat) :
    ProcState × List (Nat × Mat) × Bool :=
  output_loop env id f (streamOutputs st id) 0 st

/-- Method `process_frame` (lines 189-196): apply the effect chain, then fan out;
the whole body sits in a `try`, so a raise from `apply_effects` or from
`output_frame` is caught and logged — the frame is simply dropped (state
mutations already made by earlier sinks persist).  Nothing in the function
touches `frame_count`.  Returns the new state and the successful writes. -/
def process_frame (st : ProcState) (cv : CVOps) (cfg : EffectsConfig) (hasModel : Bool)
    (env : Nat → SinkEnv) (id : String) (f : Mat) : ProcState × List (Nat × Mat) :=
  match apply_effects cv cfg hasModel f with
  | Except.error _ => (st, [])
  | Except.ok pf =>
    let r := output_frame st env id pf
    (r.1, r.2.1)

/-- Method `add_stream` (lines 312-319): under the lock, (over)write the registry
entry for the id with a fresh record — `frame_count` starts at 0, the
given registration time becomes `start_time`.  Nothing else is touched:
in particular the `hls_process_{id}` / `dash_process_{id}` attributes of a
replaced stream survive. -/
def add_stream (st : ProcState) (id : String) (input : InputConfig)
    (outputs : List OutputConfig) (t : Rat) : ProcState :=
  { st with
    active_streams :=
      insertKey st.active_streams id
        { input := input, outputs := outputs, start_time := t, frame_count := 0 } }

/-- Outcome of tearing one sink process down in `remove_stream`. -/
inductive ProcFate where
  | graceful
  | killed
deriving DecidableEq

/-- Lines 329-334: `stdin.close(); terminate(); wait(timeout=5)` under a
`try`; on timeout (or any other exception) the bare `except` escalates to
`process.kill()`. -/
def teardown_proc (p : SinkProcess) : ProcFate :=
  if p.respondsToTerminate then ProcFate.graceful else ProcFate.killed

/-- Lines 326-335 for a single attribute name: if the attribute exists,
tear the process down and `delattr` it. -/
def teardown_attr (st : ProcState) (attr : String) : ProcState × Option ProcFate :=
  match lookupKey st.sink_procs attr with
  | none => (st, none)
  | some p =>
    ({ st with sink_procs := eraseKey st.sink_procs attr }, some (teardown_proc p))

/-- Method `remove_stream` (lines 321-335): under the lock, if the id is absent do
nothing; otherwise delete the registry entry, then for each of the
`hls_process_{id}` and `dash_process_{id}` attributes tear the process
down and delete the attribute.  Also returns the fates of the processes
that were torn down, in order. -/
def remove_stream (st : ProcState) (id : String) : ProcState × List ProcFate :=
  match lookupKey st.active_streams id with
  | none => (st, [])
  | some _ =>
    let st1 : ProcState := { st with active_streams := eraseKey st.active_streams id }
    let r1 := teardown_attr st1 ("hls_process_" ++ id)
    let r2 := teardown_attr r1.1 ("dash_process_" ++ id)
    (r2.1, r1.2.toList ++ r2.2.toList)

/-- The stats record returned by `get_stream_stats` (lines 345-352). -/
structure StreamStats where
  stream_id : String
  duration : Rat
  frame_count : Nat
  fps : Rat
  input_type : String
  output_types : List String
deriving DecidableEq

/-- Method `get_stream_stats` (lines 337-352): `None` for an unknown id, otherwise
a pure read of the entry — `duration = now - start_time`,
`fps = frame_count / duration` guarded by `duration > 0`.  The function
mutates nothing (its Lean type takes the state and returns only stats). -/
def get_stream_stats (st : ProcState) (id : String) (now : Rat) : Option StreamStats :=
  match lookupKey st.active_streams id with
  | none => none
  | some s =>
    let duration := now - s.start_time
    some
      { stream_id := id
        duration := duration
        frame_count := s.frame_count
        fps := if duration > 0 then (s.frame_count : Rat) / duration else 0
        input_type := s.input.type
        output_types := s.outputs.map OutputConfig.type }

/-- Test `stream_id in self.active_streams` (line 183). -/
def containsStream (st : ProcState) (id : String) : Bool :=
  (lookupKey st.active_streams id).isSome

/-- The `while True` loop of `process_with_opencv` (lines 176-184): read a
frame (head of `frames`); if none is left, break (the registry is NOT
touched); else process it, then check `stream_id not in self.active_streams`
and break if the stream is gone — the check between one frame and the next
read is the only cancellation point.  `interrupt n` injects a concurrent
`remove_stream` (from another task) while frame `n` is in flight, before
the membership check.  Returns the final state and how many frames were
read and processed. -/
def pull_loop (cv : CVOps) (cfg : EffectsConfig) (hasModel : Bool) (env : Nat → SinkEnv)
    (id : String) (interrupt : Nat → Bool) :
    List Mat → ProcState → Nat → ProcState × Nat
  | [], st, n => (st, n)
  | f :: rest, st, n =>
    let st1 := (process_frame st cv cfg hasModel env id f).1
    let st2 := if interrupt n then (remove_stream st1 id).1 else st1
    if containsStream st2 id then pull_loop cv cfg hasModel env id interrupt rest st2 (n + 1)
    else (st2, n + 1)

/-- Method `process_with_opencv` (lines 168-187): `cap = none` embeds a capture
handle that fails `isOpened()` — the function logs and returns at once,
processing no frames and leaving all state alone; otherwise it runs the
pull loop over the capture's frames (the `finally: cap.release()` has no
effect on the embedded state). -/
def process_with_opencv (cv : CVOps) (cfg : EffectsConfig) (hasModel : Bool)
    (env : Nat → SinkEnv) (cap : Option (List Mat)) (st : ProcState) (id : String)
    (interrupt : Nat → Bool) : ProcState × Nat :=
  match cap with
  | none => (st, 0)
  | some frames => pull_loop cv cfg hasModel env id interrupt frames st 0

/-! ### Aliasing model for `apply_effects` (claim about non-mutation)

Python numpy arrays are mutable and aliased.  To state that `apply_effects`
never mutates its caller's array, the chain is rendered once more over an
explicit heap of arrays: references are indices, `frame.copy()` allocates,
`cv2.*` calls return fresh arrays (allocations), and the one in-place
statement of the chain — `hsv[:,:,0] = ...` on line 215 — is a heap write. -/

/-- A heap of numpy arrays; a reference is an index into `arrays`. -/
structure Heap where
  arrays : List Mat

/-- Read the array a reference points to. -/
def readH (h : Heap) (r : Nat) : Mat :=
  h.arrays.getD r []

/-- Allocate a fresh array, returning the new heap and the fresh reference. -/
def allocH (h : Heap) (m : Mat) : Heap × Nat :=
  (⟨h.arrays ++ [m]⟩, h.arrays.length)

/-- Mutate the array a reference points to (numpy in-place assignment). -/
def writeH (h : Heap) (r : Nat) (m : Mat) : Heap :=
  ⟨h.arrays.set r m⟩

/-- Sequencing of heap stages with Python exception propagation: a raised
stage stops the chain, later stages run on the current reference. -/
def thenH (s : Heap × Except String Nat) (f : Heap × Nat → Heap × Except String Nat) :
    Heap × Except String Nat :=
  match s with
  | (h, Except.error e) => (h, Except.error e)
  | (h, Except.ok r) => f (h, r)

/-- A stage that calls one external function returning a fresh array:
`processed_frame = some_cv2_call(processed_frame)` rebinds the variable to
a newly allocated array (or raises). -/
def stepH (f : Mat → Except String Mat) (s : Heap × Nat) : Heap × Except String Nat :=
  match f (readH s.1 s.2) with
  | Except.error e => (s.1, Except.error e)
  | Except.ok m =>
    let a := allocH s.1 m
    (a.1, Except.ok a.2)

/-- Heap rendering of the blur stage (lines 202-204). -/
def blurStageH (cv : CVOps) (cfg : EffectsConfig) (s : Heap × Nat) :
    Heap × Except String Nat :=
  if cfg.blur.enabled then stepH (cv.gaussianBlur cfg.blur.kernel_size) s
  else (s.1, Except.ok s.2)

/-- Heap rendering of the edge-detection stage (lines 206-211): `gray` and
`edges` are intermediate fresh arrays. -/
def edgeStageH (cv : CVOps) (cfg : EffectsConfig) (s : Heap × Nat) :
    Heap × Except String Nat :=
  if cfg.edge_detection.enabled then
    thenH (stepH cv.bgr2gray s) (fun s1 =>
      thenH (stepH (cv.canny cfg.edge_detection.threshold1 cfg.edge_detection.threshold2) s1)
        (stepH cv.gray2bgr))
  else (s.1, Except.ok s.2)

/-- Heap rendering of the color-filter stage (lines 213-216): `hsv` is a
fresh array from `cvtColor`; line 215 then mutates IT in place (the only
heap write of the chain); the conversion back allocates again. -/
def colorStageH (cv : CVOps) (cfg : EffectsConfig) (s : Heap × Nat) :
    Heap × Except String Nat :=
  if cfg.color_filter.enabled then
    match cv.bgr2hsv (readH s.1 s.2) with
    | Except.error e => (s.1, Except.error e)
    | Except.ok m =>
      let a := allocH s.1 m
      let h2 := writeH a.1 a.2 (hueShiftLine cfg.color_filter.hue_shift (readH a.1 a.2))
      match cv.hsv2bgr (readH h2 a.2) with
      | Except.error e => (h2, Except.error e)
      | Except.ok m2 =>
        let b := allocH h2 m2
        (b.1, Except.ok b.2)
  else (s.1, Except.ok s.2)

/-- Heap rendering of the ML stage (lines 218-219, 223-236): on success the
converted tensor is a fresh array; on an internal failure
`apply_ml_enhancement` returns `frame` — the very same reference. -/
def mlStageH (cv : CVOps) (cfg : EffectsConfig) (hasModel : Bool) (s : Heap × Nat) :
    Heap × Except String Nat :=
  if cfg.ml_enhancement.enabled && hasModel then
    match cv.enhanceForward (readH s.1 s.2) with
    | Except.ok m =>
      let a := allocH s.1 m
      (a.1, Except.ok a.2)
    | Except.error _ => (s.1, Except.ok s.2)
  else (s.1, Except.ok s.2)

/-- Rendering of `apply_effects` over the heap: line 200 `processed_frame = frame.copy()`
allocates a copy of the caller's array, and the four stages run on the
copy.  Returns the final heap and the reference to the result (or the
raised error). -/
def apply_effectsH (h : Heap) (cv : CVOps) (cfg : EffectsConfig) (hasModel : Bool)
    (r : Nat) : Heap × Except String Nat :=
  let c := allocH h (readH h r)
  thenH (thenH (thenH (blurStageH cv cfg c) (edgeStageH cv cfg)) (colorStageH cv cfg))
    (mlStageH cv cfg hasModel)

/-- A chain result is well-behaved relative to a base heap when the heap
only grew and every array of the base heap is untouched. -/
def resultOk (h0 : Heap) (s : Heap × Except String Nat) : Prop :=
  h0.arrays.length ≤ s.1.arrays.length ∧
  ∀ r, r < h0.arrays.length → readH s.1 r = readH h0 r

/-- A heap-stage is well-behaved when, from any heap, it only writes to
freshly allocated references. -/
def stagePreserves (f : Heap × Nat → Heap × Except String Nat) : Prop :=
  ∀ (h : Heap) (pr : Nat), resultOk h (f (h, pr))

/-! ### Concrete fixtures used by witnesses and counterexamples -/

/-- External operations that all succeed and return their input unchanged. -/
def cvOk : CVOps where
  gaussianBlur := fun _ m => Except.ok m
  bgr2gray := fun m => Except.ok m
  canny := fun _ _ m => Except.ok m
  gray2bgr := fun m => Except.ok m
  bgr2hsv := fun m => Except.ok m
  hsv2bgr := fun m => Except.ok m
  enhanceForward := fun m => Except.ok m

/-- External operations where `cv2.GaussianBlur` raises. -/
def cvBlurBoom : CVOps where
  gaussianBlur := fun _ _ => Except.error "boom"
  bgr2gray := fun m => Except.ok m
  canny := fun _ _ m => Except.ok m
  gray2bgr := fun m => Except.ok m
  bgr2hsv := fun m => Except.ok m
  hsv2bgr := fun m => Except.ok m
  enhanceForward := fun m => Except.ok m

/-- External operations where the enhancement forward pass raises. -/
def cvEnhBoom : CVOps where
  gaussianBlur := fun _ m => Except.ok m
  bgr2gray := fun m => Except.ok m
  canny := fun _ _ m => Except.ok m
  gray2bgr := fun m => Except.ok m
  bgr2hsv := fun m => Except.ok m
  hsv2bgr := fun m => Except.ok m
  enhanceForward := fun _ => Except.error "oom"

/-- The default `processing_effects` configuration (lines 56-59): every
stage disabled. -/
def cfgAllOff : EffectsConfig where
  blur := { enabled := false, kernel_size := 15 }
  edge_detection := { enabled := false, threshold1 := 100, threshold2 := 200 }
  color_filter := { enabled := false, hue_shift := 0 }
  ml_enhancement := { enabled := false, model := "esrgan" }

/-- A configuration with blur and color-filter enabled. -/
def cfgBlurColor : EffectsConfig where
  blur := { enabled := true, kernel_size := 15 }
  edge_detection := { enabled := false, threshold1 := 100, threshold2 := 200 }
  color_filter := { enabled := true, hue_shift := 10 }
  ml_enhancement := { enabled := false, model := "esrgan" }

/-- All external sink effects succeed, for every sink position. -/
def envAllOk : Nat → SinkEnv := fun _ => ⟨true, true, true, true, true⟩

/-- The pipe write of the sink at position 0 raises; everything else
succeeds. -/
def envWriteFail0 : Nat → SinkEnv := fun n =>
  if n == 0 then ⟨true, true, false, true, true⟩ else ⟨true, true, true, true, true⟩

/-- A one-pixel frame. -/
def m0 : Mat := [[⟨1, 2, 3⟩]]

/-- A registry holding one stream `"s"` with a single webrtc output. -/
def stWebrtc : ProcState :=
  { active_streams := [("s", ⟨⟨"rtmp"⟩, [⟨"webrtc"⟩], 0, 0⟩)], sink_procs := [] }

/-- A registry holding one stream `"s"` with an hls and a webrtc output. -/
def stTwoSinks : ProcState :=
  { active_streams := [("s", ⟨⟨"rtmp"⟩, [⟨"hls"⟩, ⟨"webrtc"⟩], 0, 0⟩)], sink_procs := [] }

/-- A registry holding stream `"s"` together with live hls and dash sink
processes for it; the hls process responds to graceful termination, the
dash one does not. -/
def stWithProcs : ProcState :=
  { active_streams := [("s", ⟨⟨"rtmp"⟩, [⟨"hls"⟩, ⟨"dash"⟩], 0, 0⟩)],
    sink_procs := [("hls_process_s", ⟨true⟩), ("dash_process_s", ⟨false⟩)] }

/-- A registry for the stats witness: stream `"s"` registered at time 2
with 6 frames counted. -/
def stStats : ProcState :=
  { active_streams := [("s", ⟨⟨"rtmp"⟩, [⟨"hls"⟩, ⟨"webrtc"⟩], 2, 6⟩)], sink_procs := [] }

/-- A one-array heap for the non-mutation witness. -/
def heap0 : Heap := ⟨[m0]⟩

/-! ### Dictionary lemmas -/

theorem lookupKey_insertKey_self {α : Type} (l : List (String × α)) (k : String) (v : α) :
    lookupKey (insertKey l k v) k = some v := by
  induction l with
  | nil => simp [insertKey, lookupKey]
  | cons p rest ih =>
    rcases p with ⟨pk, pv⟩
    cases h : pk == k with
    | true => simp [insertKey, lookupKey, h]
    | false => simp [insertKey, lookupKey, h, ih]

theorem lookupKey_eraseKey_self {α : Type} (l : List (String × α)) (k : String) :
    lookupKey (eraseKey l k) k = none := by
  induction l with
  | nil => rfl
  | cons p rest ih =>
    rcases p with ⟨pk, pv⟩
    cases h : pk == k with
    | true => simp [eraseKey, h, ih]
    | false => simp [eraseKey, lookupKey, h, ih]

theorem lookupKey_eraseKey_ne {α : Type} (l : List (String × α)) (k k' : String)
    (h : (k' == k) = false) : lookupKey (eraseKey l k) k' = lookupKey l k' := by
  induction l with
  | nil => rfl
  | cons p rest ih =>
    rcases p with ⟨pk, pv⟩
    cases hp : pk == k with
    | true =>
      have hpk : pk = k := by simpa using hp
      have hne : (pk == k') = false := by
        subst hpk
        cases hk : (pk == k') with
        | false => rfl
        | true =>
          have hkk : pk = k' := by simpa using hk
          rw [hkk] at h
          simp at h
      simp [eraseKey, hp, lookupKey, hne, ih]
    | false => simp [eraseKey, hp, lookupKey, ih]

theorem hls_attr_ne_dash_attr (id : String) :
    (("hls_process_" ++ id) == ("dash_process_" ++ id)) = false := by
  cases h : ("hls_process_" ++ id) == ("dash_process_" ++ id) with
  | false => rfl
  | true =>
    have heq : ("hls_process_" ++ id) = ("dash_process_" ++ id) := eq_of_beq h
    have hd : ("hls_process_" ++ id).data = ("dash_process_" ++ id).data :=
      congrArg String.data heq
    rw [String.data_append, String.data_append] at hd
    simp at hd

theorem dash_attr_ne_hls_attr (id : String) :
    (("dash_process_" ++ id) == ("hls_process_" ++ id)) = false := by
  cases h : ("dash_process_" ++ id) == ("hls_process_" ++ id) with
  | false => rfl
  | true =>
    have heq : ("dash_process_" ++ id) = ("hls_process_" ++ id) := eq_of_beq h
    have hd : ("dash_process_" ++ id).data = ("hls_process_" ++ id).data :=
      congrArg String.data heq
    rw [String.data_append, String.data_append] at hd
    simp at hd

/-! ### Helper lemmas about the sink fan-out and the frame processor -/

theorem output_hls_active_streams (st : ProcState) (env : SinkEnv) (id : String) :
    (output_hls st env id).1.active_streams = st.active_streams := by
  unfold output_hls
  cases env.mkdirOk
  · simp
  · simp
    cases lookupKey st.sink_procs ("hls_process_" ++ id)
    · cases env.spawnOk <;> simp
    · simp

theorem output_dash_active_streams (st : ProcState) (env : SinkEnv) (id : String) :
    (output_dash st env id).1.active_streams = st.active_streams := by
  unfold output_dash
  cases env.mkdirOk
  · simp
  · simp
    cases lookupKey st.sink_procs ("dash_process_" ++ id)
    · cases env.spawnOk <;> simp
    · simp

theorem output_hls_no_raise (st : ProcState) (env : SinkEnv) (id : String)
    (h : env.mkdirOk = true) : (output_hls st env id).2.2 = false := by
  unfold output_hls
  rw [h]
  simp
  cases lookupKey st.sink_procs ("hls_process_" ++ id)
  · cases env.spawnOk <;> simp
  · simp

theorem output_dash_no_raise (st : ProcState) (env : SinkEnv) (id : String)
    (h : env.mkdirOk = true) : (output_dash st env id).2.2 = false := by
  unfold output_dash
  rw [h]
  simp
  cases lookupKey st.sink_procs ("dash_process_" ++ id)
  · cases env.spawnOk <;> simp
  · simp

theorem output_hls_delivers (st : ProcState) (env : SinkEnv) (id : String)
    (hm : env.mkdirOk = true) (hs : env.spawnOk = true) (hw : env.writeOk = true) :
    (output_hls st env id).2.1 = true := by
  unfold output_hls
  rw [hm]
  simp
  cases lookupKey st.sink_procs ("hls_process_" ++ id)
  · rw [hs]
    simp [hw]
  · simp [hw]

theorem output_dash_delivers (st : ProcState) (env : SinkEnv) (id : String)
    (hm : env.mkdirOk = true) (hs : env.spawnOk = true) (hw : env.writeOk = true) :
    (output_dash st env id).2.1 = true := by
  unfold output_dash
  rw [hm]
  simp
  cases lookupKey st.sink_procs ("dash_process_" ++ id)
  · rw [hs]
    simp [hw]
  · simp [hw]

theorem output_loop_spec (env : Nat → SinkEnv) (id : String) (f : Mat)
    (hmk : ∀ j, (env j).mkdirOk = true) :
    ∀ (ocs : List OutputConfig) (i : Nat) (st : ProcState),
      (output_loop env id f ocs i st).1.active_streams = st.active_streams ∧
      (output_loop env id f ocs i st).2.2 = false ∧
      ∀ k oc, ocs[k]? = some oc →
        ((oc.type == "webrtc") || (oc.type == "hls") || (oc.type == "dash")) = true →
        ((env (i + k)).encodeOk && (env (i + k)).spawnOk && (env (i + k)).writeOk) = true →
        (i + k, f) ∈ (output_loop env id f ocs i st).2.1 := by
  intro ocs
  induction ocs with
  | nil =>
    intro i st
    refine ⟨rfl, rfl, ?_⟩
    intro k oc hk
    simp at hk
  | cons oc rest ih =>
    intro i st
    cases hw : oc.type == "webrtc" with
    | true =>
      obtain ⟨ih1, ih2, ih3⟩ := ih (i + 1) st
      simp only [output_loop, hw, if_true, output_webrtc]
      refine ⟨ih1, ih2, ?_⟩
      intro k oc2 hk htype hok
      cases k with
      | zero =>
        simp only [List.getElem?_cons_zero, Option.some.injEq] at hk
        subst hk
        have hok2 := hok
        rw [Nat.add_zero] at hok2
        simp only [Bool.and_eq_true] at hok2
        rw [Nat.add_zero]
        rw [hok2.1.1]
        exact List.mem_cons_self _ _
      | succ k =>
        simp only [List.getElem?_cons_succ] at hk
        have harith : i + (k + 1) = (i + 1) + k := by omega
        rw [harith] at hok
        have hmem := ih3 k oc2 hk htype hok
        rw [harith]
        split
        · exact List.mem_cons_of_mem _ hmem
        · exact hmem
    | false =>
      cases hh : oc.type == "hls" with
      | true =>
        have hnr := output_hls_no_raise st (env i) id (hmk i)
        obtain ⟨ih1, ih2, ih3⟩ := ih (i + 1) (output_hls st (env i) id).1
        simp only [output_loop, hw, hh, if_true, if_false, Bool.false_eq_true, hnr]
        refine ⟨by rw [ih1, output_hls_active_streams], ih2, ?_⟩
        intro k oc2 hk htype hok
        cases k with
        | zero =>
          simp only [List.getElem?_cons_zero, Option.some.injEq] at hk
          subst hk
          have hok2 := hok
          rw [Nat.add_zero] at hok2
          simp only [Bool.and_eq_true] at hok2
          have hd := output_hls_delivers st (env i) id (hmk i) hok2.1.2 hok2.2
          rw [Nat.add_zero, hd]
          exact List.mem_cons_self _ _
        | succ k =>
          simp only [List.getElem?_cons_succ] at hk
          have harith : i + (k + 1) = (i + 1) + k := by omega
          rw [harith] at hok
          have hmem := ih3 k oc2 hk htype hok
          rw [harith]
          split
          · exact List.mem_cons_of_mem _ hmem
          · exact hmem
      | false =>
        cases hd : oc.type == "dash" with
        | true =>
          have hnr := output_dash_no_raise st (env i) id (hmk i)
          obtain ⟨ih1, ih2, ih3⟩ := ih (i + 1) (output_dash st (env i) id).1
          simp only [output_loop, hw, hh, hd, if_true, if_false, Bool.false_eq_true, hnr]
          refine ⟨by rw [ih1, output_dash_active_streams], ih2, ?_⟩
          intro k oc2 hk htype hok
          cases k with
          | zero =>
            simp only [List.getElem?_cons_zero, Option.some.injEq] at hk
            subst hk
            have hok2 := hok
            rw [Nat.add_zero] at hok2
            simp only [Bool.and_eq_true] at hok2
            have hdel := output_dash_delivers st (env i) id (hmk i) hok2.1.2 hok2.2
            rw [Nat.add_zero, hdel]
            exact List.mem_cons_self _ _
          | succ k =>
            simp only [List.getElem?_cons_succ] at hk
            have harith : i + (k + 1) = (i + 1) + k := by omega
            rw [harith] at hok
            have hmem := ih3 k oc2 hk htype hok
            rw [harith]
            split
            · exact List.mem_cons_of_mem _ hmem
            · exact hmem
        | false =>
          obtain ⟨ih1, ih2, ih3⟩ := ih (i + 1) st
          simp only [output_loop, hw, hh, hd, if_false, Bool.false_eq_true]
          refine ⟨ih1, ih2, ?_⟩
          intro k oc2 hk htype hok
          cases k with
          | zero =>
            simp only [List.getElem?_cons_zero, Option.some.injEq] at hk
            subst hk
            rw [hw, hh, hd] at htype
            simp at htype
          | succ k =>
            simp only [List.getElem?_cons_succ] at hk
            have harith : i + (k + 1) = (i + 1) + k := by omega
            rw [harith] at hok
            rw [harith]
            exact ih3 k oc2 hk htype hok

theorem output_loop_active_streams (env : Nat → SinkEnv) (id : String) (f : Mat) :
    ∀ (ocs : List OutputConfig) (i : Nat) (st : ProcState),
      (output_loop env id f ocs i st).1.active_streams = st.active_streams := by
  intro ocs
  induction ocs with
  | nil => intro i st; rfl
  | cons oc rest ih =>
    intro i st
    cases hw : oc.type == "webrtc" with
    | true =>
      simp only [output_loop, hw, if_true, output_webrtc]
      exact ih (i + 1) st
    | false =>
      cases hh : oc.type == "hls" with
      | true =>
        simp only [output_loop, hw, hh, if_true, if_false, Bool.false_eq_true]
        cases hr : (output_hls st (env i) id).2.2 with
        | true => simp [hr, output_hls_active_streams]
        | false =>
          simp only [hr, Bool.false_eq_true, if_false]
          rw [ih (i + 1) (output_hls st (env i) id).1, output_hls_active_streams]
      | false =>
        cases hd : oc.type == "dash" with
        | true =>
          simp only [output_loop, hw, hh, hd, if_true, if_false, Bool.false_eq_true]
          cases hr : (output_dash st (env i) id).2.2 with
          | true => simp [hr, output_dash_active_streams]
          | false =>
            simp only [hr, Bool.false_eq_true, if_false]
            rw [ih (i + 1) (output_dash st (env i) id).1, output_dash_active_streams]
        | false =>
          simp only [output_loop, hw, hh, hd, if_false, Bool.false_eq_true]
          exact ih (i + 1) st

theorem output_frame_active_streams (st : ProcState) (env : Nat → SinkEnv) (id : String)
    (f : Mat) : (output_frame st env id f).1.active_streams = st.active_streams :=
  output_loop_active_streams env id f (streamOutputs st id) 0 st

theorem process_frame_active_streams (st : ProcState) (cv : CVOps) (cfg : EffectsConfig)
    (hm : Bool) (env : Nat → SinkEnv) (id : String) (f : Mat) :
    (process_frame st cv cfg hm env id f).1.active_streams = st.active_streams := by
  unfold process_frame
  cases apply_effects cv cfg hm f with
  | error e => rfl
  | ok pf => exact output_frame_active_streams st env id pf

theorem teardown_attr_active_streams (st : ProcState) (a : String) :
    (teardown_attr st a).1.active_streams = st.active_streams := by
  unfold teardown_attr
  cases lookupKey st.sink_procs a <;> rfl

theorem teardown_attr_lookup_self (st : ProcState) (a : String) :
    lookupKey (teardown_attr st a).1.sink_procs a = none := by
  unfold teardown_attr
  cases h : lookupKey st.sink_procs a with
  | none => exact h
  | some p => exact lookupKey_eraseKey_self st.sink_procs a

theorem teardown_attr_lookup_ne (st : ProcState) (a a' : String)
    (hne : (a' == a) = false) :
    lookupKey (teardown_attr st a).1.sink_procs a' = lookupKey st.sink_procs a' := by
  unfold teardown_attr
  cases h : lookupKey st.sink_procs a with
  | none => rfl
  | some p => exact lookupKey_eraseKey_ne st.sink_procs a a' hne

theorem teardown_attr_fate (st : ProcState) (a : String) :
    (teardown_attr st a).2 = (lookupKey st.sink_procs a).map teardown_proc := by
  unfold teardown_attr
  cases lookupKey st.sink_procs a <;> rfl

theorem remove_stream_not_registered (st : ProcState) (id : String) :
    lookupKey (remove_stream st id).1.active_streams id = none := by
  unfold remove_stream
  cases h : lookupKey st.active_streams id with
  | none => exact h
  | some e =>
    rw [teardown_attr_active_streams, teardown_attr_active_streams]
    exact lookupKey_eraseKey_self st.active_streams id

/-! ### Claim theorems -/

/-- C2: for every input frame and every effects configuration,
`apply_effects` applies the enabled stages in the fixed order blur, then
edge-detection, then color-filter, then enhancement (the chain is exactly
the sequential composition of the four stages in that order, whatever
subset is enabled), a disabled stage is a no-op pass-through, and with
every stage disabled the returned frame equals the input frame. -/
theorem effect_chain_fixed_order (cv : CVOps) (cfg : EffectsConfig) (hm : Bool) (f : Mat) :
    apply_effects cv cfg hm f =
      Except.bind (blur_stage cv cfg f) (fun a =>
        Except.bind (edge_stage cv cfg a) (fun b =>
          Except.bind (color_filter_stage cv cfg b) (ml_stage cv cfg hm))) ∧
    blur_stage cv { cfg with blur := { cfg.blur with enabled := false } } f = Except.ok f ∧
    edge_stage cv
      { cfg with edge_detection := { cfg.edge_detection with enabled := false } } f =
      Except.ok f ∧
    color_filter_stage cv
      { cfg with color_filter := { cfg.color_filter with enabled := false } } f =
      Except.ok f ∧
    ml_stage cv
      { cfg with ml_enhancement := { cfg.ml_enhancement with enabled := false } } hm f =
      Except.ok f ∧
    apply_effects cv (disableAll cfg) hm f = Except.ok f :=
  ⟨rfl, rfl, rfl, rfl, rfl, rfl⟩

/-- C1: the claim says `frame_count` starts at 0 (true, see the first
conjunct) and is incremented exactly once per frame that completes the
effect chain, equalling N after N successful frames.  The code never
increments it: here one frame runs the whole chain successfully and is
delivered to the stream's sink (second conjunct), yet `frame_count` is
still 0 instead of 1 (third conjunct). -/
theorem frame_count_never_incremented :
    (lookupKey (add_stream ⟨[], []⟩ "s" ⟨"rtmp"⟩ [⟨"webrtc"⟩] 0).active_streams "s").map
        StreamEntry.frame_count = some 0 ∧
    (process_frame (add_stream ⟨[], []⟩ "s" ⟨"rtmp"⟩ [⟨"webrtc"⟩] 0) cvOk cfgAllOff false
        envAllOk "s" m0).2 = [(0, m0)] ∧
    (lookupKey ((process_frame (add_stream ⟨[], []⟩ "s" ⟨"rtmp"⟩ [⟨"webrtc"⟩] 0) cvOk
        cfgAllOff false envAllOk "s" m0).1).active_streams "s").map
        StreamEntry.frame_count = some 0 :=
  ⟨rfl, rfl, rfl⟩

/-- C7: the claim says re-adding an existing id tears the old stream's sink
processes down before the overwrite.  The code only overwrites the
registry entry: starting from a registry where stream `"s"` has live hls
and dash sink processes, `add_stream` on `"s"` leaves both processes alive
(first conjunct) while the entry is overwritten (second conjunct), so the
replaced stream's `SinkProcess`es survive re-registration. -/
theorem add_stream_keeps_old_sinks :
    (add_stream stWithProcs "s" ⟨"rtmp"⟩ [⟨"hls"⟩] 9).sink_procs =
      [("hls_process_s", ⟨true⟩), ("dash_process_s", ⟨false⟩)] ∧
    lookupKey (add_stream stWithProcs "s" ⟨"rtmp"⟩ [⟨"hls"⟩] 9).active_streams "s" =
      some { input := ⟨"rtmp"⟩, outputs := [⟨"hls"⟩], start_time := 9, frame_count := 0 } :=
  ⟨rfl, rfl⟩

/-- C5 counterexample: with blur and color-filter enabled and the blur call
raising, the claim predicts the frame proceeds through the remaining
stages with blur as a no-op and is delivered; instead `apply_effects`
propagates the error (first conjunct) and `process_frame` catches it and
drops the frame — no delivery, state unchanged (second conjunct). -/
theorem effect_stage_failure_cex :
    apply_effects cvBlurBoom cfgBlurColor false m0 = Except.error "boom" ∧
    process_frame stWebrtc cvBlurBoom cfgBlurColor false envAllOk "s" m0 =
      (stWebrtc, []) :=
  ⟨rfl, rfl⟩

/-- C5 (amended): a failure raised inside the blur, edge-detection or
color-filter stage propagates out of the chain and is caught per frame by
`process_frame`, which drops the frame entirely — no remaining stages run
to completion and nothing is delivered, the state unchanged; only the ML
enhancement stage catches its internal failure, returning its original
input frame unchanged. -/
theorem effect_stage_failure_drops_frame :
    (∀ (cv : CVOps) (f : Mat) (e : String),
      cv.enhanceForward f = Except.error e → apply_ml_enhancement cv f = f) ∧
    (∀ (cv : CVOps) (cfg : EffectsConfig) (hm : Bool) (st : ProcState)
      (env : Nat → SinkEnv) (id : String) (f : Mat) (e : String),
      apply_effects cv cfg hm f = Except.error e →
      process_frame st cv cfg hm env id f = (st, [])) := by
  constructor
  · intro cv f e h
    unfold apply_ml_enhancement
    rw [h]
  · intro cv cfg hm st env id f e h
    unfold process_frame
    rw [h]

/-- Witness for C5's amended theorem at concrete inputs: an enhancement
failure returns the input frame, and a blur failure makes `process_frame`
drop the frame. -/
theorem effect_stage_failure_drops_frame_witness :
    apply_ml_enhancement cvEnhBoom m0 = m0 ∧
    process_frame stWebrtc cvBlurBoom cfgBlurColor false envAllOk "s" m0 =
      (stWebrtc, []) :=
  ⟨effect_stage_failure_drops_frame.1 cvEnhBoom m0 "oom" rfl,
   effect_stage_failure_drops_frame.2 cvBlurBoom cfgBlurColor false stWebrtc envAllOk
     "s" m0 "boom" rfl⟩

/-- C9 counterexample: the claim says each pixel's hue becomes the original
hue plus `hue_shift` modulo 180.  For hue 179 and shift 100 that is 99;
the code's `uint8` addition wraps at 256 first, giving
`(179 + 100) % 256 % 180 = 23`. -/
theorem hue_shift_wrap_cex :
    hueShiftLine 100 [[⟨179, 5, 7⟩]] = [[⟨23, 5, 7⟩]] ∧
    hueShiftSpec 100 [[⟨179, 5, 7⟩]] = [[⟨99, 5, 7⟩]] ∧
    hueShiftLine 100 [[⟨179, 5, 7⟩]] ≠ hueShiftSpec 100 [[⟨179, 5, 7⟩]] := by
  refine ⟨rfl, rfl, ?_⟩
  decide

/-- C9 (amended): when the color filter is enabled, each pixel's hue
becomes the original hue plus `hue_shift` wrapped modulo 256 (the `uint8`
range) and then modulo 180; this agrees with the claimed
`(hue + shift) % 180` exactly when `hue + shift < 256` (first conjunct);
every resulting hue lies below 180 (second conjunct); and saturation and
value channels are unchanged (last two conjuncts). -/
theorem hue_shift_mod_semantics (shift : Nat) (hsv : Mat) :
    ((∀ row ∈ hsv, ∀ p ∈ row, p.c0 + shift < 256) →
      hueShiftLine shift hsv = hueShiftSpec shift hsv) ∧
    (∀ row ∈ hueShiftLine shift hsv, ∀ p ∈ row, p.c0 < 180) ∧
    (hueShiftLine shift hsv).map (List.map Pixel.c1) = hsv.map (List.map Pixel.c1) ∧
    (hueShiftLine shift hsv).map (List.map Pixel.c2) = hsv.map (List.map Pixel.c2) := by
  refine ⟨?_, ?_, ?_, ?_⟩
  · intro hb
    unfold hueShiftLine hueShiftSpec
    apply List.map_congr_left
    intro row hrow
    apply List.map_congr_left
    intro p hp
    have hlt := hb row hrow p hp
    rw [Nat.mod_eq_of_lt hlt]
  · intro row hrow p hp
    unfold hueShiftLine at hrow
    rw [List.mem_map] at hrow
    obtain ⟨row0, _, hrow0⟩ := hrow
    rw [← hrow0] at hp
    rw [List.mem_map] at hp
    obtain ⟨p0, _, hp0⟩ := hp
    rw [← hp0]
    exact Nat.mod_lt _ (by omega)
  · unfold hueShiftLine
    rw [List.map_map]
    apply List.map_congr_left
    intro row _
    simp [Function.comp, List.map_map]
  · unfold hueShiftLine
    rw [List.map_map]
    apply List.map_congr_left
    intro row _
    simp [Function.comp, List.map_map]

/-- Witness for C9's amended theorem: at shift 5 on a one-pixel frame with
hue 10 no wrap occurs, so the code agrees with the spec formula. -/
theorem hue_shift_mod_semantics_witness :
    hueShiftLine 5 [[⟨10, 1, 2⟩]] = hueShiftSpec 5 [[⟨10, 1, 2⟩]] :=
  (hue_shift_mod_semantics 5 [[⟨10, 1, 2⟩]]).1 (by decide)

/-- C3: delivering a frame to the stream's sinks under any per-sink
external behaviour with working directory creation: the registry is never
changed by sink activity (first conjunct), no exception escapes the
fan-out loop (second conjunct), and every webrtc/hls/dash sink whose own
spawn, write and encode succeed receives the frame — whatever failures
(spawn or write) the environment injects at the other sinks (third
conjunct).  Sink failures are caught and skipped locally inside each
`output_*` call. -/
theorem sink_fanout_isolation (st : ProcState) (env : Nat → SinkEnv) (id : String)
    (f : Mat) (hmk : ∀ j, (env j).mkdirOk = true) :
    (output_frame st env id f).1.active_streams = st.active_streams ∧
    (output_frame st env id f).2.2 = false ∧
    ∀ k oc, (streamOutputs st id)[k]? = some oc →
      ((oc.type == "webrtc") || (oc.type == "hls") || (oc.type == "dash")) = true →
      ((env k).encodeOk && (env k).spawnOk && (env k).writeOk) = true →
      (k, f) ∈ (output_frame st env id f).2.1 := by
  obtain ⟨h1, h2, h3⟩ := output_loop_spec env id f hmk (streamOutputs st id) 0 st
  refine ⟨h1, h2, ?_⟩
  intro k oc hk htype hok
  have hmem := h3 k oc hk htype (by rw [Nat.zero_add]; exact hok)
  rw [Nat.zero_add] at hmem
  exact hmem

/-- Witness for C3 at concrete inputs: stream `"s"` has an hls sink (index
0) and a webrtc sink (index 1); the environment makes the hls pipe write
raise.  The webrtc sink still receives the frame and the registry is
untouched. -/
theorem sink_fanout_isolation_witness :
    (output_frame stTwoSinks envWriteFail0 "s" m0).1.active_streams =
      stTwoSinks.active_streams ∧
    (output_frame stTwoSinks envWriteFail0 "s" m0).2.2 = false ∧
    (1, m0) ∈ (output_frame stTwoSinks envWriteFail0 "s" m0).2.1 := by
  obtain ⟨h1, h2, h3⟩ := sink_fanout_isolation stTwoSinks envWriteFail0 "s" m0
    (by intro j; unfold envWriteFail0; split <;> rfl)
  exact ⟨h1, h2, h3 1 ⟨"webrtc"⟩ (by decide) (by decide) (by decide)⟩

theorem remove_stream_absent (st : ProcState) (id : String)
    (h : lookupKey st.active_streams id = none) : remove_stream st id = (st, []) := by
  unfold remove_stream
  rw [h]

/-- C4: `remove_stream` is a no-op (not an error) on an absent id — so a
second call right after a first on the same id does nothing (fourth inner
conjunct) — and on a present id it erases the registry entry (first inner
conjunct) and tears down both possible sink processes of the id, deleting
their attributes (second and third inner conjuncts); each torn-down
process is closed, asked to terminate and waited on up to the fixed
5-second timeout, and force-killed exactly when it does not respond
(`teardown_proc`, last inner conjunct). -/
theorem remove_stream_spec (st : ProcState) (id : String) :
    (lookupKey st.active_streams id = none → remove_stream st id = (st, [])) ∧
    (∀ e, lookupKey st.active_streams id = some e →
      lookupKey (remove_stream st id).1.active_streams id = none ∧
      lookupKey (remove_stream st id).1.sink_procs ("hls_process_" ++ id) = none ∧
      lookupKey (remove_stream st id).1.sink_procs ("dash_process_" ++ id) = none ∧
      remove_stream (remove_stream st id).1 id = ((remove_stream st id).1, []) ∧
      (remove_stream st id).2 =
        ((lookupKey st.sink_procs ("hls_process_" ++ id)).map teardown_proc).toList ++
        ((lookupKey st.sink_procs ("dash_process_" ++ id)).map teardown_proc).toList) := by
  constructor
  · exact remove_stream_absent st id
  · intro e he
    have heq :
        remove_stream st id =
          ((teardown_attr
              (teardown_attr { st with active_streams := eraseKey st.active_streams id }
                ("hls_process_" ++ id)).1 ("dash_process_" ++ id)).1,
            (teardown_attr { st with active_streams := eraseKey st.active_streams id }
              ("hls_process_" ++ id)).2.toList ++
            (teardown_attr
              (teardown_attr { st with active_streams := eraseKey st.active_streams id }
                ("hls_process_" ++ id)).1 ("dash_process_" ++ id)).2.toList) := by
      unfold remove_stream
      rw [he]
    refine ⟨remove_stream_not_registered st id, ?_, ?_, ?_, ?_⟩
    · rw [heq]
      rw [teardown_attr_lookup_ne _ _ _ (hls_attr_ne_dash_attr id)]
      exact teardown_attr_lookup_self _ _
    · rw [heq]
      exact teardown_attr_lookup_self _ _
    · exact remove_stream_absent _ id (remove_stream_not_registered st id)
    · rw [heq]
      have h1 :
          (teardown_attr { st with active_streams := eraseKey st.active_streams id }
            ("hls_process_" ++ id)).2 =
            (lookupKey st.sink_procs ("hls_process_" ++ id)).map teardown_proc :=
        teardown_attr_fate _ _
      have h2 :
          (teardown_attr
            (teardown_attr { st with active_streams := eraseKey st.active_streams id }
              ("hls_process_" ++ id)).1 ("dash_process_" ++ id)).2 =
            (lookupKey st.sink_procs ("dash_process_" ++ id)).map teardown_proc := by
        rw [teardown_attr_fate]
        rw [teardown_attr_lookup_ne _ _ _ (dash_attr_ne_hls_attr id)]
      rw [h1, h2]

/-- Witness for C4 at concrete inputs: removing stream `"s"` from a
registry where it owns a responding hls process and a non-responding dash
process erases everything, makes a second removal a no-op, and reports the
hls process gracefully terminated and the dash process killed. -/
theorem remove_stream_spec_witness :
    lookupKey (remove_stream stWithProcs "s").1.active_streams "s" = none ∧
    lookupKey (remove_stream stWithProcs "s").1.sink_procs ("hls_process_" ++ "s") = none ∧
    lookupKey (remove_stream stWithProcs "s").1.sink_procs ("dash_process_" ++ "s") = none ∧
    remove_stream (remove_stream stWithProcs "s").1 "s" =
      ((remove_stream stWithProcs "s").1, []) ∧
    (remove_stream stWithProcs "s").2 =
      ((lookupKey stWithProcs.sink_procs ("hls_process_" ++ "s")).map teardown_proc).toList ++
      ((lookupKey stWithProcs.sink_procs ("dash_process_" ++ "s")).map teardown_proc).toList :=
  (remove_stream_spec stWithProcs "s").2 ⟨⟨"rtmp"⟩, [⟨"hls"⟩, ⟨"dash"⟩], 0, 0⟩ (by decide)

/-- C8: `get_stream_stats` on an unregistered id returns the not-found
result `none` (first conjunct); on a registered id it returns exactly
`duration = now - start_time`, the stream's `frame_count`,
`fps = frame_count / duration` guarded by `duration > 0`, the input kind
and the list of output kinds (second conjunct); in particular the
reported fps is 0 whenever `duration ≤ 0` (third conjunct) and
`frame_count / duration` whenever `duration > 0` (fourth conjunct).  The
function is a pure read: its Lean form consumes the state and returns
only the stats record. -/
theorem get_stream_stats_spec (st : ProcState) (id : String) (now : Rat) :
    (lookupKey st.active_streams id = none → get_stream_stats st id now = none) ∧
    (∀ e, lookupKey st.active_streams id = some e →
      get_stream_stats st id now =
        some { stream_id := id
               duration := now - e.start_time
               frame_count := e.frame_count
               fps := if 0 < now - e.start_time then
                   (e.frame_count : Rat) / (now - e.start_time) else 0
               input_type := e.input.type
               output_types := e.outputs.map OutputConfig.type }) ∧
    (∀ e, lookupKey st.active_streams id = some e → now - e.start_time ≤ 0 →
      (get_stream_stats st id now).map StreamStats.fps = some 0) ∧
    (∀ e, lookupKey st.active_streams id = some e → 0 < now - e.start_time →
      (get_stream_stats st id now).map StreamStats.fps =
        some ((e.frame_count : Rat) / (now - e.start_time))) := by
  refine ⟨?_, ?_, ?_, ?_⟩
  · intro h
    unfold get_stream_stats
    rw [h]
  · intro e he
    unfold get_stream_stats
    rw [he]
  · intro e he hd
    unfold get_stream_stats
    rw [he]
    simp only [Option.map_some]
    rw [if_neg (not_lt.mpr hd)]
    rfl
  · intro e he hd
    unfold get_stream_stats
    rw [he]
    simp only [Option.map_some]
    rw [if_pos hd]
    rfl

/-- Witness for C8 at concrete inputs: an unknown id yields `none`; stream
`"s"` registered at time 2 with 6 frames queried at time 5 yields
`fps = 6 / 3`, and queried at time 1 (duration −1 ≤ 0) yields `fps = 0`. -/
theorem get_stream_stats_spec_witness :
    get_stream_stats ⟨[], []⟩ "zzz" 5 = none ∧
    (get_stream_stats stStats "s" 5).map StreamStats.fps =
      some (((6 : Nat) : Rat) / (5 - 2)) ∧
    (get_stream_stats stStats "s" 1).map StreamStats.fps = some 0 :=
  ⟨(get_stream_stats_spec ⟨[], []⟩ "zzz" 5).1 rfl,
   (get_stream_stats_spec stStats "s" 5).2.2.2 ⟨⟨"rtmp"⟩, [⟨"hls"⟩, ⟨"webrtc"⟩], 2, 6⟩
     (by decide) (by norm_num),
   (get_stream_stats_spec stStats "s" 1).2.2.1 ⟨⟨"rtmp"⟩, [⟨"hls"⟩, ⟨"webrtc"⟩], 2, 6⟩
     (by decide) (by norm_num)⟩

theorem pull_loop_no_interrupt (cv : CVOps) (cfg : EffectsConfig) (hm : Bool)
    (env : Nat → SinkEnv) (id : String) :
    ∀ (frames : List Mat) (st : ProcState) (n : Nat), containsStream st id = true →
      (pull_loop cv cfg hm env id (fun _ => false) frames st n).1.active_streams =
        st.active_streams ∧
      (pull_loop cv cfg hm env id (fun _ => false) frames st n).2 = n + frames.length := by
  intro frames
  induction frames with
  | nil =>
    intro st n h
    exact ⟨rfl, by simp [pull_loop]⟩
  | cons f rest ih =>
    intro st n h
    have hc1 : containsStream ((process_frame st cv cfg hm env id f).1) id = true := by
      unfold containsStream
      rw [process_frame_active_streams]
      exact h
    simp only [pull_loop, Bool.false_eq_true, if_false, hc1, if_true]
    obtain ⟨ha, hn⟩ := ih (process_frame st cv cfg hm env id f).1 (n + 1) hc1
    refine ⟨?_, ?_⟩
    · rw [ha, process_frame_active_streams]
    · rw [hn]
      simp [List.length_cons]
      omega

theorem pull_loop_interrupt (cv : CVOps) (cfg : EffectsConfig) (hm : Bool)
    (env : Nat → SinkEnv) (id : String) (k : Nat) :
    ∀ (frames : List Mat) (st : ProcState) (n : Nat), containsStream st id = true →
      n ≤ k → k < n + frames.length →
      (pull_loop cv cfg hm env id (fun j => j == k) frames st n).2 = k + 1 := by
  intro frames
  induction frames with
  | nil =>
    intro st n h hnk hkl
    simp at hkl
    omega
  | cons f rest ih =>
    intro st n h hnk hkl
    by_cases hek : n = k
    · subst hek
      have hbeq : (n == n) = true := by simp
      have hc2 : containsStream
          ((remove_stream ((process_frame st cv cfg hm env id f).1) id).1) id = false := by
        unfold containsStream
        rw [remove_stream_not_registered]
        rfl
      simp only [pull_loop, hbeq, if_true, hc2, Bool.false_eq_true, if_false]
    · have hbeq : (n == k) = false := by simp [hek]
      have hc1 : containsStream ((process_frame st cv cfg hm env id f).1) id = true := by
        unfold containsStream
        rw [process_frame_active_streams]
        exact h
      simp only [pull_loop, hbeq, Bool.false_eq_true, if_false, hc1, if_true]
      apply ih
      · exact hc1
      · omega
      · simp [List.length_cons] at hkl
        omega

/-- C6 counterexample: the claim says that when no frame is available the
stream is ended and removed from the registry.  Feeding one frame to a
registered stream and exhausting the source leaves the loop finished
(first conjunct: both frames read, i.e. the single frame was processed)
while the registry still holds the stream entry (second conjunct), not
removed. -/
theorem source_exhaustion_keeps_stream_cex :
    (process_with_opencv cvOk cfgAllOff false envAllOk (some [m0]) stWebrtc "s"
      (fun _ => false)).2 = 1 ∧
    lookupKey (process_with_opencv cvOk cfgAllOff false envAllOk (some [m0]) stWebrtc "s"
      (fun _ => false)).1.active_streams "s" =
      some ⟨⟨"rtmp"⟩, [⟨"webrtc"⟩], 0, 0⟩ := by
  constructor
  · decide
  · decide

/-- C6 (amended): in the pull-loop ingest variant, if the capture handle on
the URL cannot be opened the function returns at once — the stream
processes no frames and no state changes (first conjunct; the registry
entry made at registration is left as is, no explicit failure is
surfaced); if the source is exhausted the loop ends having processed every
frame but the stream entry is NOT removed from the registry (second
conjunct); and the loop checks registry membership after each processed
frame, before reading the next — a concurrent `remove_stream` while frame
k is in flight stops the loop right after frame k, so exactly k+1 frames
are read (third conjunct). -/
theorem process_with_opencv_spec (cv : CVOps) (cfg : EffectsConfig) (hm : Bool)
    (env : Nat → SinkEnv) (st : ProcState) (id : String) (k : Nat) :
    process_with_opencv cv cfg hm env none st id (fun j => j == k) = (st, 0) ∧
    (∀ frames, containsStream st id = true →
      (process_with_opencv cv cfg hm env (some frames) st id
          (fun _ => false)).1.active_streams = st.active_streams ∧
      (process_with_opencv cv cfg hm env (some frames) st id (fun _ => false)).2 =
        frames.length) ∧
    (∀ frames, containsStream st id = true → k < frames.length →
      (process_with_opencv cv cfg hm env (some frames) st id (fun j => j == k)).2 =
        k + 1) := by
  refine ⟨rfl, ?_, ?_⟩
  · intro frames h
    obtain ⟨ha, hn⟩ := pull_loop_no_interrupt cv cfg hm env id frames st 0 h
    exact ⟨ha, by rw [process_with_opencv, hn]; omega⟩
  · intro frames h hk
    have := pull_loop_interrupt cv cfg hm env id k frames st 0 h (Nat.zero_le k)
      (by omega)
    rw [process_with_opencv]
    exact this

/-- Witness for C6's amended theorem at concrete inputs: an unopenable
capture processes nothing; two available frames are both processed with
the registry untouched; and an injected removal during frame 0 stops the
loop after exactly one frame. -/
theorem process_with_opencv_spec_witness :
    process_with_opencv cvOk cfgAllOff false envAllOk none stWebrtc "s"
      (fun j => j == 0) = (stWebrtc, 0) ∧
    (process_with_opencv cvOk cfgAllOff false envAllOk (some [m0, m0]) stWebrtc "s"
      (fun _ => false)).2 = 2 ∧
    (process_with_opencv cvOk cfgAllOff false envAllOk (some [m0, m0]) stWebrtc "s"
      (fun j => j == 0)).2 = 0 + 1 :=
  ⟨(process_with_opencv_spec cvOk cfgAllOff false envAllOk stWebrtc "s" 0).1,
   ((process_with_opencv_spec cvOk cfgAllOff false envAllOk stWebrtc "s" 0).2.1
     [m0, m0] (by decide)).2,
   (process_with_opencv_spec cvOk cfgAllOff false envAllOk stWebrtc "s" 0).2.2
     [m0, m0] (by decide) (by decide)⟩

theorem readH_allocH_lt (h : Heap) (m : Mat) (r : Nat) (hr : r < h.arrays.length) :
    readH (allocH h m).1 r = readH h r := by
  unfold readH allocH
  simp [List.getD, List.getElem?_append, hr]

theorem readH_writeH_ne (h : Heap) (i : Nat) (m : Mat) (r : Nat) (hne : r ≠ i) :
    readH (writeH h i m) r = readH h r := by
  have hne2 : i ≠ r := fun he => hne he.symm
  unfold readH writeH
  simp [List.getD, List.getElem?_set, hne2]

theorem thenH_ok (h0 : Heap) (s : Heap × Except String Nat)
    (f : Heap × Nat → Heap × Except String Nat) (hs : resultOk h0 s)
    (hf : stagePreserves f) : resultOk h0 (thenH s f) := by
  obtain ⟨hlen, hread⟩ := hs
  rcases s with ⟨h, res⟩
  cases res with
  | error e => exact ⟨hlen, hread⟩
  | ok pr =>
    obtain ⟨flen, fread⟩ := hf h pr
    refine ⟨le_trans hlen flen, ?_⟩
    intro r hr
    rw [thenH]
    rw [fread r (lt_of_lt_of_le hr hlen), hread r hr]

theorem stepH_preserves (g : Mat → Except String Mat) : stagePreserves (stepH g) := by
  intro h pr
  unfold stepH
  cases g (readH h pr) with
  | error e => exact ⟨le_refl _, fun r hr => rfl⟩
  | ok m =>
    refine ⟨?_, ?_⟩
    · simp [allocH]
    · intro r hr
      exact readH_allocH_lt h m r hr

theorem blurStageH_preserves (cv : CVOps) (cfg : EffectsConfig) :
    stagePreserves (blurStageH cv cfg) := by
  intro h pr
  unfold blurStageH
  cases cfg.blur.enabled with
  | true => exact stepH_preserves (cv.gaussianBlur cfg.blur.kernel_size) h pr
  | false => exact ⟨le_refl _, fun r hr => rfl⟩

theorem edgeStageH_preserves (cv : CVOps) (cfg : EffectsConfig) :
    stagePreserves (edgeStageH cv cfg) := by
  intro h pr
  unfold edgeStageH
  cases cfg.edge_detection.enabled with
  | false => exact ⟨le_refl _, fun r hr => rfl⟩
  | true =>
    simp only [if_true]
    apply thenH_ok h _ _ (stepH_preserves cv.bgr2gray h pr)
    intro h1 pr1
    exact thenH_ok h1 _ _
      (stepH_preserves
        (cv.canny cfg.edge_detection.threshold1 cfg.edge_detection.threshold2) h1 pr1)
      (stepH_preserves cv.gray2bgr)

theorem colorStageH_preserves (cv : CVOps) (cfg : EffectsConfig) :
    stagePreserves (colorStageH cv cfg) := by
  intro h pr
  cases hen : cfg.color_filter.enabled with
  | false =>
    simp only [colorStageH, hen, Bool.false_eq_true, if_false]
    exact ⟨le_refl _, fun r hr => rfl⟩
  | true =>
    cases hb : cv.bgr2hsv (readH h pr) with
    | error e =>
      simp only [colorStageH, hen, if_true, hb]
      exact ⟨le_refl _, fun r hr => rfl⟩
    | ok m =>
      simp only [colorStageH, hen, if_true, hb]
      have hwlen :
          (writeH (allocH h m).1 (allocH h m).2
            (hueShiftLine cfg.color_filter.hue_shift
              (readH (allocH h m).1 (allocH h m).2))).arrays.length =
            h.arrays.length + 1 := by
        simp [writeH, allocH]
      have hwread : ∀ r, r < h.arrays.length →
          readH (writeH (allocH h m).1 (allocH h m).2
            (hueShiftLine cfg.color_filter.hue_shift
              (readH (allocH h m).1 (allocH h m).2))) r = readH h r := by
        intro r hr
        rw [readH_writeH_ne _ _ _ _ (by simp [allocH]; omega)]
        exact readH_allocH_lt h m r hr
      split
      next e2 heq =>
        constructor
        · show h.arrays.length ≤
            (writeH (allocH h m).1 (allocH h m).2
              (hueShiftLine cfg.color_filter.hue_shift
                (readH (allocH h m).1 (allocH h m).2))).arrays.length
          rw [hwlen]
          omega
        · exact hwread
      next m2 heq =>
        constructor
        · show h.arrays.length ≤
            (allocH (writeH (allocH h m).1 (allocH h m).2
              (hueShiftLine cfg.color_filter.hue_shift
                (readH (allocH h m).1 (allocH h m).2))) m2).1.arrays.length
          have hal :
              (allocH (writeH (allocH h m).1 (allocH h m).2
                (hueShiftLine cfg.color_filter.hue_shift
                  (readH (allocH h m).1 (allocH h m).2))) m2).1.arrays.length =
                h.arrays.length + 2 := by
            simp [allocH, writeH]
          rw [hal]
          omega
        · show ∀ r, r < h.arrays.length →
            readH (allocH (writeH (allocH h m).1 (allocH h m).2
              (hueShiftLine cfg.color_filter.hue_shift
                (readH (allocH h m).1 (allocH h m).2))) m2).1 r = readH h r
          intro r hr
          rw [readH_allocH_lt _ _ _ (by rw [hwlen]; omega)]
          exact hwread r hr

theorem mlStageH_preserves (cv : CVOps) (cfg : EffectsConfig) (hm : Bool) :
    stagePreserves (mlStageH cv cfg hm) := by
  intro h pr
  unfold mlStageH
  cases cfg.ml_enhancement.enabled && hm with
  | false => exact ⟨le_refl _, fun r hr => rfl⟩
  | true =>
    simp only [if_true]
    cases cv.enhanceForward (readH h pr) with
    | error e => exact ⟨le_refl _, fun r hr => rfl⟩
    | ok m =>
      refine ⟨?_, ?_⟩
      · simp [allocH]
      · intro r hr
        exact readH_allocH_lt h m r hr

/-- C10: `apply_effects` never mutates the frame passed to it.  In the heap
rendering of the chain (`apply_effectsH`), whatever the external
operations do, whichever stages are enabled, and whether or not the chain
raises, the array the caller's reference points to is bit-for-bit
unchanged: line 200 copies the frame and the only in-place write of the
chain (line 215) hits the freshly allocated hsv array. -/
theorem apply_effects_preserves_input (h : Heap) (cv : CVOps) (cfg : EffectsConfig)
    (hm : Bool) (r : Nat) (hr : r < h.arrays.length) :
    readH (apply_effectsH h cv cfg hm r).1 r = readH h r := by
  unfold apply_effectsH
  have hc : resultOk h (blurStageH cv cfg (allocH h (readH h r))) := by
    obtain ⟨blen, bread⟩ := blurStageH_preserves cv cfg (allocH h (readH h r)).1
      (allocH h (readH h r)).2
    have halen : (allocH h (readH h r)).1.arrays.length = h.arrays.length + 1 := by
      simp [allocH]
    constructor
    · exact le_trans (by rw [halen]; omega) blen
    · intro r2 hr2
      have hstep := bread r2 (by rw [halen]; omega)
      have hbase := readH_allocH_lt h (readH h r) r2 hr2
      exact hstep.trans hbase
  have h2 := thenH_ok h _ _ hc (edgeStageH_preserves cv cfg)
  have h3 := thenH_ok h _ _ h2 (colorStageH_preserves cv cfg)
  have h4 := thenH_ok h _ _ h3 (mlStageH_preserves cv cfg hm)
  exact h4.2 r hr

/-- Witness for C10: on a one-array heap holding `m0`, running the chain
with blur and color-filter enabled leaves the caller's array unchanged. -/
theorem apply_effects_preserves_input_witness :
    readH (apply_effectsH heap0 cvOk cfgBlurColor false 0).1 0 = readH heap0 0 :=
  apply_effects_preserves_input heap0 cvOk cfgBlurColor false 0 (by decide)
